import Mathlib

/-!
Verification of the versioned denormalization engine in `src/index.ts`.

The TypeScript source maintains, per entity kind (Revision, Slide, Track):
an append-only audit log and a chain of denormalized snapshot versions
linked through a `previous` reference.  We embed the data model and the
five operations (`insertRev`, `insertSlide`, `insertTrack`,
`insertDenormalizedSlide`, `insertDenormalized`) as pure Lean functions
over an explicit `State` record holding the five Mongo collections, the
ObjectId generator and the clock.  Mongo `insertOne` becomes a list
append; `findOne` sorted by `_createdAt` descending becomes "last
matching element" (timestamps are modelled by a strictly increasing
counter, so the sort order coincides with insertion order); `findOne`
without a sort becomes "first matching element".  The `deepmerge`
calls (library `deepmerge-ts`) are modelled field by field following
that library's documented semantics: plain records merge recursively,
arrays concatenate, and for every other value the later argument wins.
A JavaScript `TypeError` caused by dereferencing a `null` lookup result
(the `slide!`/`rev!` non-null assertions) is modelled as the error value
`Err.nullDeref`, returned together with the state reached at the point
of the throw.
-/

namespace TestAudit

/-- Actor attached to every event, `interface User` in the source. -/
structure User where
  email : String
deriving DecidableEq, Repr

/-- Track payload, `interface TrackObj`.  `slideId` is an `Option` so that an
event missing its parent-reference field is representable, as it is in
JavaScript where the field is simply `undefined`. -/
structure TrackObj where
  id : String
  type : String
  seconds : Option Int
  slideId : Option String
  questions : List String
deriving DecidableEq, Repr

/-- Slide payload, `interface SlideObj`. -/
structure SlideObj where
  id : String
  position : Int
  type : String
  mediaUrl : Option String
  revisionId : String
  createdAt : Nat
deriving DecidableEq, Repr

/-- Revision payload, `interface RevObj`. -/
structure RevObj where
  status : String
  major : Int
  minor : Int
  patch : Int
  id : String
  createdAt : Nat
deriving DecidableEq, Repr

/-- An incoming event, `interface Entity<T>`.  The event kind is kept as a
plain string because the fold treats kinds outside created/updated/deleted
as no-ops. -/
structure Entity (T : Type) where
  entity : String
  event : String
  logTime : Nat
  object : T
  blameUser : User
deriving DecidableEq, Repr

/-- A stored audit record: an event plus the store-assigned `_id` (modelled
as a `Nat` drawn from a counter) and `_createdAt` insertion timestamp. -/
structure Audit (T : Type) extends Entity T where
  oid : Nat
  cAt : Nat
deriving DecidableEq, Repr

/-- A document of the `denormalizedSlideAudits` collection,
`interface SlideSchema`: an audit record enriched with the embedded Track
collection and the `previous` version reference.  The reference is stored
by id (the source copies `prev._id` into the new document). -/
structure SlideSnap extends Audit SlideObj where
  tracks : List (Audit TrackObj)
  previous : Option Nat
deriving DecidableEq, Repr

/-- A Slide entry embedded in a Revision snapshot.  It is created from a
slide audit record, which carries no `tracks` key; the key appears only
once a track event touches the entry, hence the `Option`. -/
structure RevSlideRec extends Audit SlideObj where
  tracks : Option (List (Audit TrackObj))
deriving DecidableEq, Repr

/-- A document of the `denormalizedRevAudits` collection,
`RevisionSchema & slides`. -/
structure RevSnap extends Audit RevObj where
  slides : List RevSlideRec
  previous : Option Nat
deriving DecidableEq, Repr

/-- The tagged child argument of `insertDenormalized`: a slide event or a
track event, each carrying the audit record just written. -/
inductive RevChildren where
  | slide (item : Audit SlideObj)
  | track (item : Audit TrackObj)
deriving DecidableEq, Repr

/-- Failure modes of the embedded operations.  The only failure the source
can produce is a JavaScript `TypeError` from dereferencing a `null`
parent (`slide!`, `rev!`); the source defines no ParentNotFound and no
MalformedEvent error. -/
inductive Err where
  | nullDeref
deriving DecidableEq, Repr

/-- The five Mongo collections plus the ObjectId generator and the clock.
Both counters increase strictly, so `_createdAt` values are pairwise
distinct and sorting by `_createdAt` descending agrees with reverse
insertion order. -/
structure State where
  revAudits : List (Audit RevObj)
  slideAudits : List (Audit SlideObj)
  trackAudits : List (Audit TrackObj)
  slideSnaps : List SlideSnap
  revSnaps : List RevSnap
  nextId : Nat
  now : Nat
deriving DecidableEq, Repr

/-- State of a freshly created database: all five collections empty. -/
def initState : State :=
  { revAudits := [], slideAudits := [], trackAudits := [],
    slideSnaps := [], revSnaps := [], nextId := 0, now := 0 }

/-- Model of `findOne(filter, sort _createdAt : -1)`: the last matching
element of the collection, since timestamps increase along the list. -/
def lastMatch? (l : List α) (p : α → Bool) : Option α :=
  (l.filter p).getLast?

/-- Deepmerge of two Track payloads, following `deepmerge-ts`: scalar
fields take the later value, the `questions` array is concatenated. -/
def deepmergeTrackObj (a b : TrackObj) : TrackObj :=
  { id := b.id, type := b.type, seconds := b.seconds, slideId := b.slideId,
    questions := a.questions ++ b.questions }

/-- Deepmerge of two actor records: the single scalar field takes the
later value. -/
def deepmergeUser (_a b : User) : User :=
  { email := b.email }

/-- Deepmerge of two stored track records, `deepmerge(s, children)` in the
source: every field outside the payload is a scalar (strings, dates,
ObjectIds), so the later record wins there, and the payloads merge
recursively. -/
def deepmergeTrack (a b : Audit TrackObj) : Audit TrackObj :=
  { entity := b.entity, event := b.event, logTime := b.logTime,
    object := deepmergeTrackObj a.object b.object,
    blameUser := deepmergeUser a.blameUser b.blameUser,
    oid := b.oid, cAt := b.cAt }

/-- Deepmerge of two Slide payloads: every field is a scalar, so each field
takes the later value. -/
def deepmergeSlideObj (_a b : SlideObj) : SlideObj :=
  { id := b.id, position := b.position, type := b.type, mediaUrl := b.mediaUrl,
    revisionId := b.revisionId, createdAt := b.createdAt }

/-- Deepmerge of an embedded Slide entry with an incoming slide audit
record, `deepmerge(s, item)` in the source.  The incoming record carries
no `tracks` key, so the existing embedded tracks are kept: `deepmerge-ts`
keeps keys present on only one side. -/
def deepmergeRevSlide (s : RevSlideRec) (item : Audit SlideObj) : RevSlideRec :=
  { entity := item.entity, event := item.event, logTime := item.logTime,
    object := deepmergeSlideObj s.object item.object,
    blameUser := deepmergeUser s.blameUser item.blameUser,
    oid := item.oid, cAt := item.cAt,
    tracks := s.tracks }

/-- The child-folding block of `insertDenormalizedSlide`
(src/index.ts lines 205 to 222): created appends, updated deep-merges into
entries with the same domain id, deleted removes by domain id, any other
event kind is a no-op. -/
def applyTrackChild (tracks : List (Audit TrackObj)) (children : Audit TrackObj) :
    List (Audit TrackObj) :=
  if children.event == "created" then
    tracks ++ [children]
  else if children.event == "updated" then
    tracks.map fun s => if s.object.id == children.object.id then deepmergeTrack s children else s
  else if children.event == "deleted" then
    tracks.filter fun s => !(s.object.id == children.object.id)
  else
    tracks

/-- The child-folding block of `insertDenormalized`
(src/index.ts lines 278 to 335): a slide child folds into the embedded
Slide collection by domain id; a track child locates the embedded Slide
whose domain id equals the track's `slideId` and folds into that Slide's
embedded tracks; unknown event kinds are no-ops. -/
def applyRevChildren (slides : List RevSlideRec) (children : RevChildren) :
    List RevSlideRec :=
  match children with
  | RevChildren.slide item =>
    if item.event == "created" then
      slides ++ [{ toAudit := item, tracks := none }]
    else if item.event == "updated" then
      slides.map fun s => if s.object.id == item.object.id then deepmergeRevSlide s item else s
    else if item.event == "deleted" then
      slides.filter fun s => !(s.object.id == item.object.id)
    else
      slides
  | RevChildren.track item =>
    if item.event == "created" then
      slides.map fun s =>
        if some s.object.id == item.object.slideId then
          { s with tracks := some ((s.tracks.getD []) ++ [item]) }
        else s
    else if item.event == "updated" then
      slides.map fun s =>
        if some s.object.id == item.object.slideId then
          { s with tracks := some ((s.tracks.getD []).map fun t =>
              if t.object.id == item.object.id then deepmergeTrack t item else t) }
        else s
    else if item.event == "deleted" then
      slides.map fun s =>
        if some s.object.id == item.object.slideId then
          { s with tracks := some ((s.tracks.getD []).filter fun t =>
              !(t.object.id == item.object.id)) }
        else s
    else
      slides

/-- Model of `insertDenormalizedSlide` (src/index.ts lines 163 to 225).
Resolves the latest prior Slide snapshot for the item's domain id; if none
exists the new version starts from the item with an empty track collection
and `previous = null`, otherwise the prior body is spread under the item
(the item carries every top-level key except `tracks`, so effectively the
item's fields plus the prior tracks), the event kind is forced to
`updated` and `previous` is set to the prior version's id.  The optional
track child is then folded in and the new version is appended with a
fresh id and timestamp. -/
def insertDenormalizedSlide (st : State) (item : Entity SlideObj)
    (children : Option (Audit TrackObj)) : State :=
  let prev := lastMatch? st.slideSnaps (fun d => d.object.id == item.object.id)
  let base : SlideSnap :=
    match prev with
    | none =>
      { entity := item.entity, event := item.event, logTime := item.logTime,
        object := item.object, blameUser := item.blameUser,
        oid := st.nextId, cAt := st.now, tracks := [], previous := none }
    | some p =>
      { entity := item.entity, event := "updated", logTime := item.logTime,
        object := item.object, blameUser := item.blameUser,
        oid := st.nextId, cAt := st.now, tracks := p.tracks, previous := some p.oid }
  let nextSlide : SlideSnap :=
    match children with
    | none => base
    | some ch => { base with tracks := applyTrackChild base.tracks ch }
  { st with slideSnaps := st.slideSnaps ++ [nextSlide],
            nextId := st.nextId + 1, now := st.now + 1 }

/-- Model of `insertDenormalized` (src/index.ts lines 226 to 339), the
Revision-level twin of `insertDenormalizedSlide` with the embedded Slide
collection in place of the track collection. -/
def insertDenormalized (st : State) (item : Entity RevObj)
    (children : Option RevChildren) : State :=
  let prev := lastMatch? st.revSnaps (fun d => d.object.id == item.object.id)
  let base : RevSnap :=
    match prev with
    | none =>
      { entity := item.entity, event := item.event, logTime := item.logTime,
        object := item.object, blameUser := item.blameUser,
        oid := st.nextId, cAt := st.now, slides := [], previous := none }
    | some p =>
      { entity := item.entity, event := "updated", logTime := item.logTime,
        object := item.object, blameUser := item.blameUser,
        oid := st.nextId, cAt := st.now, slides := p.slides, previous := some p.oid }
  let nextRev : RevSnap :=
    match children with
    | none => base
    | some ch => { base with slides := applyRevChildren base.slides ch }
  { st with revSnaps := st.revSnaps ++ [nextRev],
            nextId := st.nextId + 1, now := st.now + 1 }

/-- Model of `insertRev` (src/index.ts lines 73 to 82): append the audit
record, then fold the event into the Revision snapshot chain.  No
validation of any kind is performed. -/
def insertRev (st : State) (rev : Entity RevObj) : State × Option Err :=
  let audit : Audit RevObj := { toEntity := rev, oid := st.nextId, cAt := st.now }
  let st1 :=
    { st with
      revAudits := st.revAudits ++ [audit]
      nextId := st.nextId + 1
      now := st.now + 1 }
  (insertDenormalized st1 rev none, none)

/-- Model of `insertSlide` (src/index.ts lines 84 to 117): resolve the
latest revision audit for the slide's `revisionId`, append the slide audit
record, fold the event into the Slide snapshot chain, then fold it into
the Revision snapshot chain using the resolved revision audit as the item.
When no revision audit exists the source passes `null` through `rev!` and
crashes inside `insertDenormalized` while reading `item.object.id`, after
the slide audit and the Slide-level snapshot have already been written. -/
def insertSlide (st : State) (slide : Entity SlideObj) : State × Option Err :=
  let rev := lastMatch? st.revAudits (fun r => r.object.id == slide.object.revisionId)
  let audit : Audit SlideObj := { toEntity := slide, oid := st.nextId, cAt := st.now }
  let st1 :=
    { st with
      slideAudits := st.slideAudits ++ [audit]
      nextId := st.nextId + 1
      now := st.now + 1 }
  let st2 := insertDenormalizedSlide st1 slide none
  match rev with
  | none => (st2, some Err.nullDeref)
  | some r => (insertDenormalized st2 r.toEntity (some (RevChildren.slide audit)), none)

/-- Model of `insertTrack` (src/index.ts lines 119 to 161): resolve the
latest slide audit for the track's `slideId` (sorted lookup) and the first
revision audit for that slide's `revisionId` (unsorted lookup), append the
track audit record, fold the event into the Slide snapshot chain using the
resolved slide audit as the item, then fold it into the Revision snapshot
chain.  When the slide audit is missing the source passes `null` through
`slide!` and crashes while reading `item.object.id`, after the track audit
record has already been written; when only the revision audit is missing
it crashes one call later, after the Slide-level snapshot has also been
written. -/
def insertTrack (st : State) (track : Entity TrackObj) : State × Option Err :=
  let slide := lastMatch? st.slideAudits (fun a => some a.object.id == track.object.slideId)
  let rev :=
    match slide with
    | none => none
    | some s => st.revAudits.find? (fun r : Audit RevObj => r.object.id == s.object.revisionId)
  let audit : Audit TrackObj := { toEntity := track, oid := st.nextId, cAt := st.now }
  let st1 :=
    { st with
      trackAudits := st.trackAudits ++ [audit]
      nextId := st.nextId + 1
      now := st.now + 1 }
  match slide with
  | none => (st1, some Err.nullDeref)
  | some s =>
    let st2 := insertDenormalizedSlide st1 s.toEntity (some audit)
    match rev with
    | none => (st2, some Err.nullDeref)
    | some r => (insertDenormalized st2 r.toEntity (some (RevChildren.track audit)), none)

/-- JSON-like value, the output type of the read-side projection
functions.  Objects are key-value lists in construction order. -/
inductive JVal where
  | null
  | str (s : String)
  | num (n : Int)
  | arr (items : List JVal)
  | obj (fields : List (String × JVal))

/-- Lookup of a key in an object field list, first match. -/
def lookupFields (fields : List (String × JVal)) (k : String) : Option JVal :=
  match fields with
  | [] => none
  | (k', v) :: rest => if k' == k then some v else lookupFields rest k

/-- Lookup of a key in a `JVal`; `none` on non-objects. -/
def lookupJ (j : JVal) (k : String) : Option JVal :=
  match j with
  | JVal.obj fields => lookupFields fields k
  | _ => none

/-- Key presence test on a `JVal`. -/
def hasKey (j : JVal) (k : String) : Bool :=
  (lookupJ j k).isSome

/-- Rendering of a nullable string. -/
def jOfOptStr : Option String → JVal
  | none => JVal.null
  | some s => JVal.str s

/-- Rendering of a nullable number. -/
def jOfOptInt : Option Int → JVal
  | none => JVal.null
  | some n => JVal.num n

/-- Rendering of an actor record. -/
def jOfUser (u : User) : JVal :=
  JVal.obj [("email", JVal.str u.email)]

/-- Rendering of a Track payload. -/
def jOfTrackObj (t : TrackObj) : JVal :=
  JVal.obj [("id", JVal.str t.id), ("type", JVal.str t.type),
            ("seconds", jOfOptInt t.seconds), ("slideId", jOfOptStr t.slideId),
            ("questions", JVal.arr (t.questions.map JVal.str))]

/-- Rendering of a Slide payload as an object field list. -/
def jOfSlideObj (s : SlideObj) : List (String × JVal) :=
  [("id", JVal.str s.id), ("position", JVal.num s.position), ("type", JVal.str s.type),
   ("mediaUrl", jOfOptStr s.mediaUrl), ("revisionId", JVal.str s.revisionId),
   ("createdAt", JVal.num (Int.ofNat s.createdAt))]

/-- Rendering of a raw stored track record with all bookkeeping fields. -/
def jOfTrackRec (t : Audit TrackObj) : JVal :=
  JVal.obj [("entity", JVal.str t.entity), ("event", JVal.str t.event),
            ("logTime", JVal.num (Int.ofNat t.logTime)), ("object", jOfTrackObj t.object),
            ("blameUser", jOfUser t.blameUser), ("_createdAt", JVal.num (Int.ofNat t.cAt)),
            ("_id", JVal.num (Int.ofNat t.oid))]

/-- Model of `transformTrack` (src/index.ts lines 366 to 369): the
projection of a stored track record is just its raw payload. -/
def transformTrack (data : Audit TrackObj) : JVal :=
  jOfTrackObj data.object

/-- Model of `transformSlide` (src/index.ts lines 355 to 364), the Slide
view nested under a Revision view: the payload moves under `lessonSlide`
and every other stored field, embedded raw tracks included, passes
through. -/
def transformSlide (data : RevSlideRec) : JVal :=
  JVal.obj ([("_id", JVal.num (Int.ofNat data.oid)),
             ("lessonSlide", JVal.obj (jOfSlideObj data.object)),
             ("entity", JVal.str data.entity), ("event", JVal.str data.event),
             ("logTime", JVal.num (Int.ofNat data.logTime)),
             ("blameUser", jOfUser data.blameUser),
             ("_createdAt", JVal.num (Int.ofNat data.cAt))] ++
            (match data.tracks with
             | none => []
             | some ts => [("tracks", JVal.arr (ts.map jOfTrackRec))]))

/-- A Slide snapshot with its version chain fully resolved, the recursive
reading of `interface SlideSchema` where `previous : null | SlideSchema`.
The read path materializes one ancestor hop; the projection functions are
nevertheless total on chains of any depth, which is what the ancestor
bound is about. -/
inductive SlideChainDoc where
  | mk (entity event : String) (logTime : Nat) (object : SlideObj) (blameUser : User)
       (oid cAt : Nat) (tracks : List (Audit TrackObj)) (previous : Option SlideChainDoc)

/-- Version-chain pointer of a resolved Slide snapshot. -/
def SlideChainDoc.previous : SlideChainDoc → Option SlideChainDoc
  | SlideChainDoc.mk _ _ _ _ _ _ _ _ p => p

/-- Model of `transformSlide2` (src/index.ts lines 371 to 392), the
top-level Slide projection: bookkeeping fields pass through, the payload
and the projected tracks move under `lessonSlide`, and at depth 0 only,
when an ancestor exists, the `previous` output field is set to the
`lessonSlide` member of the ancestor's own projection at depth 1. -/
def transformSlide2 : SlideChainDoc → Nat → JVal
  | SlideChainDoc.mk entity event logTime object blameUser oid cAt tracks previous, depth =>
    let dt := [("entity", JVal.str entity), ("event", JVal.str event),
               ("logTime", JVal.num (Int.ofNat logTime)), ("blameUser", jOfUser blameUser),
               ("_id", JVal.num (Int.ofNat oid)), ("_createdAt", JVal.num (Int.ofNat cAt)),
               ("lessonSlide", JVal.obj (jOfSlideObj object ++
                 [("tracks", JVal.arr (tracks.map transformTrack))]))]
    match depth, previous with
    | 0, some p =>
      JVal.obj (dt ++ [("previous", (lookupJ (transformSlide2 p 1) "lessonSlide").getD JVal.null)])
    | _, _ => JVal.obj dt

/-- A Revision snapshot with its version chain fully resolved, the
recursive reading of `interface RevisionSchema` with its embedded slide
collection. -/
inductive RevChainDoc where
  | mk (entity event : String) (logTime : Nat) (object : RevObj) (blameUser : User)
       (oid cAt : Nat) (slides : List RevSlideRec) (previous : Option RevChainDoc)

/-- Version-chain pointer of a resolved Revision snapshot. -/
def RevChainDoc.previous : RevChainDoc → Option RevChainDoc
  | RevChainDoc.mk _ _ _ _ _ _ _ _ p => p

/-- Model of `transformRev` (src/index.ts lines 394 to 427), the Revision
projection: bookkeeping fields pass through, `lessonRevision` holds the
composed semantic version string, status, id, creation date and the
projected slides, and at depth 0 only, when an ancestor exists, the
`previous` output field is set to the `lessonRevision` member of the
ancestor's own projection at depth 1. -/
def transformRev : RevChainDoc → Nat → JVal
  | RevChainDoc.mk entity event logTime object blameUser oid cAt slides previous, depth =>
    let dt := [("_id", JVal.num (Int.ofNat oid)), ("_createdAt", JVal.num (Int.ofNat cAt)),
               ("entity", JVal.str entity), ("event", JVal.str event),
               ("logTime", JVal.num (Int.ofNat logTime)), ("blameUser", jOfUser blameUser),
               ("lessonRevision", JVal.obj
                 [("version", JVal.str (toString object.major ++ "." ++
                    toString object.minor ++ "." ++ toString object.patch)),
                  ("status", JVal.str object.status),
                  ("id", JVal.str object.id),
                  ("createdAt", JVal.str (toString object.createdAt)),
                  ("slides", JVal.arr (slides.map transformSlide))])]
    match depth, previous with
    | 0, some p =>
      JVal.obj (dt ++ [("previous", (lookupJ (transformRev p 1) "lessonRevision").getD JVal.null)])
    | _, _ => JVal.obj dt

/-! Concrete sample data, mirroring the shape of `src/sample.ts` fixtures,
used by counterexamples and witnesses. -/

/-- Sample actor. -/
def u1 : User := ⟨"user@example.com"⟩

/-- Sample Revision created event. -/
def revEv1 : Entity RevObj :=
  { entity := "revision", event := "created", logTime := 100,
    object := { status := "draft", major := 1, minor := 0, patch := 0,
                id := "r1", createdAt := 10 },
    blameUser := u1 }

/-- Sample Slide created event under revision r1. -/
def slideEv1 : Entity SlideObj :=
  { entity := "slide", event := "created", logTime := 101,
    object := { id := "s1", position := 1, type := "media", mediaUrl := none,
                revisionId := "r1", createdAt := 11 },
    blameUser := u1 }

/-- Sample Track created event under slide s1. -/
def trackEv1 : Entity TrackObj :=
  { entity := "track", event := "created", logTime := 102,
    object := { id := "t1", type := "question", seconds := some 6,
                slideId := some "s1", questions := ["q1"] },
    blameUser := u1 }

/-- Sample Track updated event for t1 carrying one more question. -/
def trackEv1u : Entity TrackObj :=
  { entity := "track", event := "updated", logTime := 103,
    object := { id := "t1", type := "question", seconds := some 7,
                slideId := some "s1", questions := ["q2"] },
    blameUser := u1 }

/-- A structurally invalid Track event: its required parent-reference
field `slideId` is missing. -/
def malformedTrackEv : Entity TrackObj :=
  { entity := "track", event := "created", logTime := 104,
    object := { id := "t9", type := "question", seconds := some 3,
                slideId := none, questions := [] },
    blameUser := u1 }

/-- State after processing the sample Revision event on a fresh database. -/
def stateAfterRev : State := (insertRev initState revEv1).1

/-- State after the sample Revision and Slide events. -/
def stateAfterSlide : State := (insertSlide stateAfterRev slideEv1).1

/-! Small frame lemmas about the two snapshot builders. -/

@[simp]
theorem insertDenormalizedSlide_revSnaps (st : State) (item : Entity SlideObj)
    (ch : Option (Audit TrackObj)) :
    (insertDenormalizedSlide st item ch).revSnaps = st.revSnaps := rfl

@[simp]
theorem insertDenormalizedSlide_revAudits (st : State) (item : Entity SlideObj)
    (ch : Option (Audit TrackObj)) :
    (insertDenormalizedSlide st item ch).revAudits = st.revAudits := rfl

@[simp]
theorem insertDenormalizedSlide_slideAudits (st : State) (item : Entity SlideObj)
    (ch : Option (Audit TrackObj)) :
    (insertDenormalizedSlide st item ch).slideAudits = st.slideAudits := rfl

@[simp]
theorem insertDenormalizedSlide_trackAudits (st : State) (item : Entity SlideObj)
    (ch : Option (Audit TrackObj)) :
    (insertDenormalizedSlide st item ch).trackAudits = st.trackAudits := rfl

@[simp]
theorem insertDenormalized_slideSnaps (st : State) (item : Entity RevObj)
    (ch : Option RevChildren) :
    (insertDenormalized st item ch).slideSnaps = st.slideSnaps := rfl

@[simp]
theorem insertDenormalized_revAudits (st : State) (item : Entity RevObj)
    (ch : Option RevChildren) :
    (insertDenormalized st item ch).revAudits = st.revAudits := rfl

@[simp]
theorem insertDenormalized_slideAudits (st : State) (item : Entity RevObj)
    (ch : Option RevChildren) :
    (insertDenormalized st item ch).slideAudits = st.slideAudits := rfl

@[simp]
theorem insertDenormalized_trackAudits (st : State) (item : Entity RevObj)
    (ch : Option RevChildren) :
    (insertDenormalized st item ch).trackAudits = st.trackAudits := rfl

theorem insertDenormalizedSlide_snaps_append (st : State) (item : Entity SlideObj)
    (ch : Option (Audit TrackObj)) :
    ∃ d, (insertDenormalizedSlide st item ch).slideSnaps = st.slideSnaps ++ [d] :=
  ⟨_, rfl⟩

theorem insertDenormalized_snaps_append (st : State) (item : Entity RevObj)
    (ch : Option RevChildren) :
    ∃ d, (insertDenormalized st item ch).revSnaps = st.revSnaps ++ [d] :=
  ⟨_, rfl⟩

/-- Claim C7: processing an event never rewrites a snapshot version that
was persisted before the fold: each of the three entry points only ever
appends to the two snapshot stores, so every previously stored version is
still present, unchanged and in place, in the resulting state.  (In the
source this holds because every prior version is re-read from the store
and the new version is built from that fresh copy; the collections
themselves are only ever written through `insertOne`.) -/
theorem C7_prior_versions_immutable (st : State) (eR : Entity RevObj)
    (eS : Entity SlideObj) (eT : Entity TrackObj) :
    (∃ a, (insertRev st eR).1.slideSnaps = st.slideSnaps ++ a ∧
      ∃ b, (insertRev st eR).1.revSnaps = st.revSnaps ++ b) ∧
    (∃ a, (insertSlide st eS).1.slideSnaps = st.slideSnaps ++ a ∧
      ∃ b, (insertSlide st eS).1.revSnaps = st.revSnaps ++ b) ∧
    (∃ a, (insertTrack st eT).1.slideSnaps = st.slideSnaps ++ a ∧
      ∃ b, (insertTrack st eT).1.revSnaps = st.revSnaps ++ b) := by
  refine ⟨⟨[], by simp [insertRev], ⟨_, rfl⟩⟩, ?_, ?_⟩
  · unfold insertSlide
    cases h : lastMatch? st.revAudits fun r => r.object.id == eS.object.revisionId <;>
        simp only [h]
    · exact ⟨[_], rfl, [], by simp⟩
    · exact ⟨[_], rfl, [_], rfl⟩
  · unfold insertTrack
    cases h : lastMatch? st.slideAudits fun a => some a.object.id == eT.object.slideId
    · simp only [h]
      exact ⟨[], by simp, [], by simp⟩
    · simp only [h]
      rename_i s
      cases h2 : List.find? (fun r : Audit RevObj => r.object.id == s.object.revisionId)
          st.revAudits <;> simp only [h2]
      · exact ⟨[_], rfl, [], by simp⟩
      · exact ⟨[_], rfl, [_], rfl⟩

/-- Claim C4, counterexample: a structurally invalid Track event (missing
its required `slideId` parent-reference field) is not rejected before the
log append — the append happens and the record lands in the track audit
log; processing then fails with a null dereference, not with any
MalformedEvent error (no such error exists in the source). -/
theorem C4_counterexample :
    (insertTrack initState malformedTrackEv).1.trackAudits.length = 1 ∧
    (insertTrack initState malformedTrackEv).2 = some Err.nullDeref := by
  exact ⟨rfl, rfl⟩

/-- Claim C4, amended: the audit-log append succeeds unconditionally for
every event of every kind, structurally valid or not; no validation is
performed and no MalformedEvent failure path exists.  Each entry point
appends exactly one audit record, carrying the event verbatim, to its
log, whatever the event contains and whatever else then fails. -/
theorem C4_append_unconditional (st : State) (eR : Entity RevObj)
    (eS : Entity SlideObj) (eT : Entity TrackObj) :
    (∃ a, (insertRev st eR).1.revAudits = st.revAudits ++ [a] ∧ a.toEntity = eR) ∧
    (∃ a, (insertSlide st eS).1.slideAudits = st.slideAudits ++ [a] ∧ a.toEntity = eS) ∧
    (∃ a, (insertTrack st eT).1.trackAudits = st.trackAudits ++ [a] ∧ a.toEntity = eT) := by
  refine ⟨⟨_, rfl, rfl⟩, ?_, ?_⟩
  · unfold insertSlide
    cases h : lastMatch? st.revAudits fun r => r.object.id == eS.object.revisionId <;>
        simp only [h] <;> exact ⟨_, rfl, rfl⟩
  · unfold insertTrack
    cases h : lastMatch? st.slideAudits fun a => some a.object.id == eT.object.slideId
    · simp only [h]
      exact ⟨_, rfl, rfl⟩
    · simp only [h]
      rename_i s
      cases h2 : List.find? (fun r : Audit RevObj => r.object.id == s.object.revisionId)
          st.revAudits <;> simp only [h2] <;> exact ⟨_, rfl, rfl⟩

/-- Claim C3: evaluation of the code at the failing input.  A Track event
whose parent slide id has no slide record at all is processed as follows:
the track audit record is appended, then the source dereferences the
`null` lookup result (`slide!`) and throws a TypeError — modelled as
`Err.nullDeref` — instead of failing with a ParentNotFound error; no
snapshot is written. -/
theorem C3_missing_parent_crashes :
    (insertTrack initState trackEv1).2 = some Err.nullDeref ∧
    (insertTrack initState trackEv1).1.trackAudits.length = 1 ∧
    (insertTrack initState trackEv1).1.slideSnaps = [] ∧
    (insertTrack initState trackEv1).1.revSnaps = [] := by
  exact ⟨rfl, rfl, rfl, rfl⟩

/-- Claim C8, counterexample: fold plus persist is not all-or-nothing.
A Slide event whose revision has no audit record fails (null dereference
inside the Revision-level fold), yet it leaves behind both its slide
audit record and a freshly persisted Slide-level snapshot version, while
the Revision store is untouched — a partial persist by a failed event. -/
theorem C8_counterexample :
    (insertSlide initState slideEv1).2 = some Err.nullDeref ∧
    (insertSlide initState slideEv1).1.slideAudits.length = 1 ∧
    (insertSlide initState slideEv1).1.slideSnaps.length = 1 ∧
    (insertSlide initState slideEv1).1.revSnaps = [] := by
  exact ⟨rfl, rfl, rfl, rfl⟩

/-- Claim C8, amended: no event ever fails with MalformedEvent or
ParentNotFound (neither error exists in the source); an event that does
fail — by null dereference on a missing parent — aborts processing, but
only after its audit-log append has already happened, and, for a Slide
event with no revision audit, after the Slide-level snapshot has already
been persisted.  The failure therefore leaves the audit record (always)
and possibly a partial snapshot behind. -/
theorem C8_failure_not_atomic (st : State) (eS : Entity SlideObj) (eT : Entity TrackObj)
    (hS : lastMatch? st.revAudits (fun r => r.object.id == eS.object.revisionId) = none)
    (hT : lastMatch? st.slideAudits (fun a => some a.object.id == eT.object.slideId) = none) :
    ((insertSlide st eS).2 = some Err.nullDeref ∧
      (∃ a, (insertSlide st eS).1.slideAudits = st.slideAudits ++ [a]) ∧
      (∃ d, (insertSlide st eS).1.slideSnaps = st.slideSnaps ++ [d]) ∧
      (insertSlide st eS).1.revSnaps = st.revSnaps) ∧
    ((insertTrack st eT).2 = some Err.nullDeref ∧
      (∃ a, (insertTrack st eT).1.trackAudits = st.trackAudits ++ [a]) ∧
      (insertTrack st eT).1.slideSnaps = st.slideSnaps ∧
      (insertTrack st eT).1.revSnaps = st.revSnaps) := by
  constructor
  · unfold insertSlide
    simp only [hS]
    exact ⟨trivial, ⟨_, rfl⟩, ⟨_, rfl⟩, rfl⟩
  · unfold insertTrack
    simp only [hT]
    exact ⟨trivial, ⟨_, rfl⟩, trivial, trivial⟩

/-- Claim C8, witness for the amended theorem at the sample inputs on a
fresh database. -/
theorem C8_failure_not_atomic_witness :
    ((insertSlide initState slideEv1).2 = some Err.nullDeref ∧
      (∃ a, (insertSlide initState slideEv1).1.slideAudits = initState.slideAudits ++ [a]) ∧
      (∃ d, (insertSlide initState slideEv1).1.slideSnaps = initState.slideSnaps ++ [d]) ∧
      (insertSlide initState slideEv1).1.revSnaps = initState.revSnaps) ∧
    ((insertTrack initState trackEv1).2 = some Err.nullDeref ∧
      (∃ a, (insertTrack initState trackEv1).1.trackAudits = initState.trackAudits ++ [a]) ∧
      (insertTrack initState trackEv1).1.slideSnaps = initState.slideSnaps ∧
      (insertTrack initState trackEv1).1.revSnaps = initState.revSnaps) :=
  C8_failure_not_atomic initState slideEv1 trackEv1 rfl rfl

/-- Claim C2, counterexample: a Slide event does produce a new version in
the Slide-level snapshot store.  Starting from the state with one
Revision processed and no Slide snapshot, processing one Slide event
leaves exactly one Slide-level snapshot version behind. -/
theorem C2_counterexample :
    stateAfterRev.slideSnaps.length = 0 ∧
    (insertSlide stateAfterRev slideEv1).1.slideSnaps.length = 1 := by
  exact ⟨rfl, rfl⟩

/-- Claim C2, amended: a Slide event whose revision audit exists succeeds
and produces exactly one new snapshot version in each of the two snapshot
stores — the Revision-level one and also the Slide-level one; a Revision
event produces exactly one Revision-level version and no Slide-level
version. -/
theorem C2_one_version_per_store (st : State) (eS : Entity SlideObj) (eR : Entity RevObj)
    (h : (lastMatch? st.revAudits (fun r => r.object.id == eS.object.revisionId)).isSome) :
    ((insertSlide st eS).2 = none ∧
      (insertSlide st eS).1.slideSnaps.length = st.slideSnaps.length + 1 ∧
      (insertSlide st eS).1.revSnaps.length = st.revSnaps.length + 1) ∧
    ((insertRev st eR).1.revSnaps.length = st.revSnaps.length + 1 ∧
      (insertRev st eR).1.slideSnaps = st.slideSnaps) := by
  constructor
  · obtain ⟨r, hr⟩ := Option.isSome_iff_exists.mp h
    unfold insertSlide
    simp only [hr]
    refine ⟨trivial, ?_, ?_⟩
    · show (st.slideSnaps ++ [_]).length = st.slideSnaps.length + 1
      simp
    · show (st.revSnaps ++ [_]).length = st.revSnaps.length + 1
      simp
  · constructor
    · show (st.revSnaps ++ [_]).length = st.revSnaps.length + 1
      simp
    · rfl

/-- Claim C2, witness for the amended theorem: one Slide event and one
Revision event processed on the state holding the sample Revision. -/
theorem C2_one_version_per_store_witness :
    ((insertSlide stateAfterRev slideEv1).2 = none ∧
      (insertSlide stateAfterRev slideEv1).1.slideSnaps.length =
        stateAfterRev.slideSnaps.length + 1 ∧
      (insertSlide stateAfterRev slideEv1).1.revSnaps.length =
        stateAfterRev.revSnaps.length + 1) ∧
    ((insertRev stateAfterRev revEv1).1.revSnaps.length =
        stateAfterRev.revSnaps.length + 1 ∧
      (insertRev stateAfterRev revEv1).1.slideSnaps = stateAfterRev.slideSnaps) :=
  C2_one_version_per_store stateAfterRev slideEv1 revEv1 rfl

/-- A concrete one-version Revision chain. -/
def revChainDoc1 : RevChainDoc :=
  RevChainDoc.mk "revision" "created" 100 revEv1.object u1 1 1 [] none

/-- A concrete two-version Revision chain. -/
def revChainDoc2 : RevChainDoc :=
  RevChainDoc.mk "revision" "updated" 101 revEv1.object u1 4 2 [] (some revChainDoc1)

/-- A concrete three-version Revision chain. -/
def revChainDoc3 : RevChainDoc :=
  RevChainDoc.mk "revision" "updated" 102 revEv1.object u1 7 3 [] (some revChainDoc2)

theorem transformRev_ancestor_no_previous (p : RevChainDoc) (d : Nat) :
    lookupJ ((lookupJ (transformRev p d) "lessonRevision").getD JVal.null) "previous" = none := by
  cases p with
  | mk entity event logTime object blameUser oid cAt slides previous =>
    cases d with
    | zero => cases previous <;> simp [transformRev, lookupJ, lookupFields]
    | succ n => simp [transformRev, lookupJ, lookupFields]

theorem transformRev_previous_field (c : RevChainDoc) (d : Nat) :
    lookupJ (transformRev c d) "previous" =
      (if d = 0 then c.previous.map
        (fun p => (lookupJ (transformRev p 1) "lessonRevision").getD JVal.null) else none) := by
  cases c with
  | mk entity event logTime object blameUser oid cAt slides previous =>
    cases d with
    | zero =>
      cases previous <;> simp [transformRev, lookupJ, lookupFields, RevChainDoc.previous]
    | succ n => simp [transformRev, lookupJ, lookupFields, RevChainDoc.previous]

theorem transformSlide2_ancestor_no_previous (p : SlideChainDoc) (d : Nat) :
    lookupJ ((lookupJ (transformSlide2 p d) "lessonSlide").getD JVal.null) "previous" = none := by
  cases p with
  | mk entity event logTime object blameUser oid cAt tracks previous =>
    cases d with
    | zero => cases previous <;> simp [transformSlide2, lookupJ, lookupFields, jOfSlideObj]
    | succ n => simp [transformSlide2, lookupJ, lookupFields, jOfSlideObj]

theorem transformSlide2_previous_field (c : SlideChainDoc) (d : Nat) :
    lookupJ (transformSlide2 c d) "previous" =
      (if d = 0 then c.previous.map
        (fun p => (lookupJ (transformSlide2 p 1) "lessonSlide").getD JVal.null) else none) := by
  cases c with
  | mk entity event logTime object blameUser oid cAt tracks previous =>
    cases d with
    | zero =>
      cases previous <;> simp [transformSlide2, lookupJ, lookupFields, SlideChainDoc.previous]
    | succ n => simp [transformSlide2, lookupJ, lookupFields, SlideChainDoc.previous]

/-- Claim C6, counterexample: on a three-version chain, the projected
document does include exactly one ancestor, but the ancestor is *not* in
the same external view shape as the top-level view document: the
top-level document carries its content under a `lessonRevision` key,
while the value stored under `previous` has no `lessonRevision` key — it
*is* the bare lesson-revision sub-document (it has the transformer-made
`version` key, so it is not the raw snapshot shape either). -/
theorem C6_counterexample :
    hasKey (transformRev revChainDoc3 0) "lessonRevision" = true ∧
    ((lookupJ (transformRev revChainDoc3 0) "previous").map
      (fun p => hasKey p "lessonRevision")) = some false ∧
    ((lookupJ (transformRev revChainDoc3 0) "previous").map
      (fun p => hasKey p "version")) = some true := by
  exact ⟨rfl, rfl, rfl⟩

/-- Claim C6, amended: projecting a snapshot with ancestors enabled
(depth 0) includes at most one ancestor level however long the chain is —
the `previous` output field, present exactly when the snapshot has a
predecessor and the depth is 0, holds a document that itself has no
`previous` field at all.  That ancestor document is the `lessonRevision`
(respectively `lessonSlide`) sub-document of the same transformer applied
to the predecessor: a transformed inner view, not the raw snapshot shape,
but also not the full top-level view shape. -/
theorem C6_one_ancestor_level (c : RevChainDoc) (c2 : SlideChainDoc) (d : Nat) :
    (lookupJ (transformRev c d) "previous" =
      (if d = 0 then c.previous.map
        (fun p => (lookupJ (transformRev p 1) "lessonRevision").getD JVal.null) else none)) ∧
    ((lookupJ (transformRev c d) "previous").all fun p => !(hasKey p "previous")) = true ∧
    (lookupJ (transformSlide2 c2 d) "previous" =
      (if d = 0 then c2.previous.map
        (fun p => (lookupJ (transformSlide2 p 1) "lessonSlide").getD JVal.null) else none)) ∧
    ((lookupJ (transformSlide2 c2 d) "previous").all fun p => !(hasKey p "previous")) = true := by
  refine ⟨transformRev_previous_field c d, ?_, transformSlide2_previous_field c2 d, ?_⟩
  · rw [transformRev_previous_field c d]
    cases d with
    | zero =>
      cases hp : c.previous with
      | none => rfl
      | some p => simp [hasKey, transformRev_ancestor_no_previous]
    | succ n => rfl
  · rw [transformSlide2_previous_field c2 d]
    cases d with
    | zero =>
      cases hp : c2.previous with
      | none => rfl
      | some p => simp [hasKey, transformSlide2_ancestor_no_previous]
    | succ n => rfl

/-- Event kind carried by a tagged child argument. -/
def RevChildren.event : RevChildren → String
  | RevChildren.slide item => item.event
  | RevChildren.track item => item.event

theorem applyTrackChild_unknown (ts : List (Audit TrackObj)) (ch : Audit TrackObj)
    (h1 : ch.event ≠ "created") (h2 : ch.event ≠ "updated") (h3 : ch.event ≠ "deleted") :
    applyTrackChild ts ch = ts := by
  simp [applyTrackChild, h1, h2, h3]

theorem applyRevChildren_unknown (slides : List RevSlideRec) (ch : RevChildren)
    (h1 : ch.event ≠ "created") (h2 : ch.event ≠ "updated") (h3 : ch.event ≠ "deleted") :
    applyRevChildren slides ch = slides := by
  cases ch with
  | slide item =>
    simp only [RevChildren.event] at h1 h2 h3
    simp [applyRevChildren, h1, h2, h3]
  | track item =>
    simp only [RevChildren.event] at h1 h2 h3
    simp [applyRevChildren, h1, h2, h3]

/-- Claim C10: an event whose kind is outside created/updated/deleted is a
no-op for the embedded child collection, yet a new snapshot version is
still persisted: the new version carries the baseline's children
unchanged, points at the prior latest version through `previous`, and has
a version id distinct from every version already in the store — unknown
event kinds still extend the version chain, at both nesting levels. -/
theorem C10_unknown_kind_extends_chain (st : State) (item : Entity SlideObj)
    (ch : Audit TrackObj) (p : SlideSnap) (itemR : Entity RevObj) (chR : RevChildren)
    (pR : RevSnap)
    (hk1 : ch.event ≠ "created") (hk2 : ch.event ≠ "updated") (hk3 : ch.event ≠ "deleted")
    (hp : lastMatch? st.slideSnaps (fun d => d.object.id == item.object.id) = some p)
    (hfresh : ∀ d ∈ st.slideSnaps, d.oid < st.nextId)
    (hR1 : chR.event ≠ "created") (hR2 : chR.event ≠ "updated") (hR3 : chR.event ≠ "deleted")
    (hpR : lastMatch? st.revSnaps (fun d => d.object.id == itemR.object.id) = some pR)
    (hfreshR : ∀ d ∈ st.revSnaps, d.oid < st.nextId) :
    (∃ q, (insertDenormalizedSlide st item (some ch)).slideSnaps = st.slideSnaps ++ [q] ∧
      q.tracks = p.tracks ∧ q.previous = some p.oid ∧ ∀ d ∈ st.slideSnaps, d.oid ≠ q.oid) ∧
    (∃ q, (insertDenormalized st itemR (some chR)).revSnaps = st.revSnaps ++ [q] ∧
      q.slides = pR.slides ∧ q.previous = some pR.oid ∧ ∀ d ∈ st.revSnaps, d.oid ≠ q.oid) := by
  constructor
  · unfold insertDenormalizedSlide
    simp only [hp]
    refine ⟨_, rfl, ?_, rfl, ?_⟩
    · exact applyTrackChild_unknown p.tracks ch hk1 hk2 hk3
    · intro d hd
      exact Nat.ne_of_lt (hfresh d hd)
  · unfold insertDenormalized
    simp only [hpR]
    refine ⟨_, rfl, ?_, rfl, ?_⟩
    · exact applyRevChildren_unknown pR.slides chR hR1 hR2 hR3
    · intro d hd
      exact Nat.ne_of_lt (hfreshR d hd)

/-- A stored track record holding the sample created track. -/
def trackRec1 : Audit TrackObj := { toEntity := trackEv1, oid := 2, cAt := 2 }

/-- A concrete Slide snapshot whose track collection holds `trackRec1`. -/
def snapW : SlideSnap :=
  { entity := "slide", event := "created", logTime := 101, object := slideEv1.object,
    blameUser := u1, oid := 0, cAt := 0, tracks := [trackRec1], previous := none }

/-- A concrete Revision snapshot embedding slide s1 with `trackRec1`. -/
def revSnapW : RevSnap :=
  { entity := "revision", event := "created", logTime := 100, object := revEv1.object,
    blameUser := u1, oid := 1, cAt := 1,
    slides := [{ toAudit := { toEntity := slideEv1, oid := 0, cAt := 0 },
                 tracks := some [trackRec1] }],
    previous := none }

/-- A concrete state holding one Slide snapshot and one Revision snapshot. -/
def stW : State :=
  { revAudits := [], slideAudits := [], trackAudits := [],
    slideSnaps := [snapW], revSnaps := [revSnapW], nextId := 3, now := 3 }

/-- A track audit record with an unknown event kind. -/
def archivedTrack : Audit TrackObj :=
  { toEntity := { trackEv1 with event := "archived" }, oid := 5, cAt := 5 }

/-- Claim C10, witness: a track child with event kind `archived` folded at
both nesting levels on the concrete state `stW`. -/
theorem C10_unknown_kind_extends_chain_witness :
    (∃ q, (insertDenormalizedSlide stW slideEv1 (some archivedTrack)).slideSnaps =
        stW.slideSnaps ++ [q] ∧
      q.tracks = snapW.tracks ∧ q.previous = some snapW.oid ∧
      ∀ d ∈ stW.slideSnaps, d.oid ≠ q.oid) ∧
    (∃ q, (insertDenormalized stW revEv1 (some (RevChildren.track archivedTrack))).revSnaps =
        stW.revSnaps ++ [q] ∧
      q.slides = revSnapW.slides ∧ q.previous = some revSnapW.oid ∧
      ∀ d ∈ stW.revSnaps, d.oid ≠ q.oid) :=
  C10_unknown_kind_extends_chain stW slideEv1 archivedTrack snapW revEv1
    (RevChildren.track archivedTrack) revSnapW
    (by decide) (by decide) (by decide) (by decide) (by decide)
    (by decide) (by decide) (by decide) (by decide) (by decide)

theorem applyTrackChild_updated (ts : List (Audit TrackObj)) (ch : Audit TrackObj)
    (hk : ch.event = "updated") :
    applyTrackChild ts ch =
      ts.map fun s => if s.object.id == ch.object.id then deepmergeTrack s ch else s := by
  simp [applyTrackChild, hk]

theorem applyRevChildren_track_updated (slides : List RevSlideRec) (chR : Audit TrackObj)
    (hk : chR.event = "updated") :
    applyRevChildren slides (RevChildren.track chR) =
      slides.map fun s =>
        if some s.object.id == chR.object.slideId then
          { s with tracks := some ((s.tracks.getD []).map fun t =>
              if t.object.id == chR.object.id then deepmergeTrack t chR else t) }
        else s := by
  simp [applyRevChildren, hk]

theorem applyTrackChild_updated_mem (ts : List (Audit TrackObj)) (ch : Audit TrackObj)
    (t : Audit TrackObj) (ht : t ∈ ts) (hid : t.object.id = ch.object.id)
    (hk : ch.event = "updated") :
    deepmergeTrack t ch ∈ applyTrackChild ts ch := by
  rw [applyTrackChild_updated ts ch hk]
  have h : deepmergeTrack t ch =
      (fun s => if s.object.id == ch.object.id then deepmergeTrack s ch else s) t := by
    simp [hid]
  rw [h]
  exact List.mem_map_of_mem _ ht

/-- Claim C9: folding an `updated` event into a child collection merges
through the generic deep merge, which concatenates array-valued fields:
the updated entry's `questions` array is the prior array with the
incoming one appended, not the incoming one alone.  Shown at both nesting
levels: for the Slide-level builder the new snapshot's track entry, and
for the Revision-level child fold the embedded slide's track entry. -/
theorem C9_update_concatenates_arrays (st : State) (item : Entity SlideObj)
    (ch : Audit TrackObj) (p : SlideSnap) (t : Audit TrackObj)
    (h1 : lastMatch? st.slideSnaps (fun d => d.object.id == item.object.id) = some p)
    (h2 : t ∈ p.tracks) (h3 : t.object.id = ch.object.id) (h4 : ch.event = "updated")
    (slides : List RevSlideRec) (s : RevSlideRec) (t2 chR : Audit TrackObj)
    (h5 : s ∈ slides) (h6 : t2 ∈ s.tracks.getD []) (h7 : t2.object.id = chR.object.id)
    (h8 : some s.object.id = chR.object.slideId) (h9 : chR.event = "updated") :
    (∃ q, (insertDenormalizedSlide st item (some ch)).slideSnaps = st.slideSnaps ++ [q] ∧
      ∃ t', t' ∈ q.tracks ∧ t'.object.id = ch.object.id ∧
        t'.object.questions = t.object.questions ++ ch.object.questions) ∧
    (∃ s', s' ∈ applyRevChildren slides (RevChildren.track chR) ∧
      ∃ t', t' ∈ s'.tracks.getD [] ∧ t'.object.id = chR.object.id ∧
        t'.object.questions = t2.object.questions ++ chR.object.questions) := by
  constructor
  · unfold insertDenormalizedSlide
    simp only [h1]
    exact ⟨_, rfl, deepmergeTrack t ch, applyTrackChild_updated_mem p.tracks ch t h2 h3 h4,
      rfl, rfl⟩
  · rw [applyRevChildren_track_updated slides chR h9]
    refine ⟨{ s with tracks := some ((s.tracks.getD []).map fun t' =>
        if t'.object.id == chR.object.id then deepmergeTrack t' chR else t') }, ?_, ?_⟩
    · have : ({ s with tracks := some ((s.tracks.getD []).map fun t' =>
          if t'.object.id == chR.object.id then deepmergeTrack t' chR else t') } : RevSlideRec) =
          (fun x : RevSlideRec => if some x.object.id == chR.object.slideId then
            { x with tracks := some ((x.tracks.getD []).map fun t' =>
              if t'.object.id == chR.object.id then deepmergeTrack t' chR else t') }
          else x) s := by
        simp [← h8]
      rw [this]
      exact List.mem_map_of_mem _ h5
    · refine ⟨deepmergeTrack t2 chR, ?_, rfl, rfl⟩
      have : deepmergeTrack t2 chR = (fun t' : Audit TrackObj =>
          if t'.object.id == chR.object.id then deepmergeTrack t' chR else t') t2 := by
        simp [h7]
      rw [this]
      exact List.mem_map_of_mem _ h6

/-- A track audit record updating t1, used to witness the merge. -/
def trackRecU : Audit TrackObj := { toEntity := trackEv1u, oid := 9, cAt := 9 }

/-- Claim C9, witness: the update `trackRecU` folded over `stW`, whose
latest Slide snapshot and embedded slide both hold `trackRec1`. -/
theorem C9_update_concatenates_arrays_witness :
    (∃ q, (insertDenormalizedSlide stW slideEv1 (some trackRecU)).slideSnaps =
        stW.slideSnaps ++ [q] ∧
      ∃ t', t' ∈ q.tracks ∧ t'.object.id = trackRecU.object.id ∧
        t'.object.questions = trackRec1.object.questions ++ trackRecU.object.questions) ∧
    (∃ s', s' ∈ applyRevChildren revSnapW.slides (RevChildren.track trackRecU) ∧
      ∃ t', t' ∈ s'.tracks.getD [] ∧ t'.object.id = trackRecU.object.id ∧
        t'.object.questions = trackRec1.object.questions ++ trackRecU.object.questions) :=
  C9_update_concatenates_arrays stW slideEv1 trackRecU snapW trackRec1
    (by decide) (by decide) (by decide) (by decide)
    revSnapW.slides (revSnapW.slides.get ⟨0, by decide⟩) trackRec1 trackRecU
    (by decide) (by decide) (by decide) (by decide) (by decide)

/-! Claim C1 infrastructure: the Track fold restricted to payloads, and
the specification-side description of the folded collection. -/

/-- The Track child fold of `insertDenormalizedSlide` restricted to the
stored payloads: same branching as `applyTrackChild`, acting on `TrackObj`
values. -/
def applyTrackObj (ts : List TrackObj) (e : Entity TrackObj) : List TrackObj :=
  if e.event == "created" then
    ts ++ [e.object]
  else if e.event == "updated" then
    ts.map fun o => if o.id == e.object.id then deepmergeTrackObj o e.object else o
  else if e.event == "deleted" then
    ts.filter fun o => !(o.id == e.object.id)
  else
    ts

/-- Whether no `deleted` event for the domain id `i` occurs in `evs`. -/
def noLaterDelete (i : String) (evs : List (Entity TrackObj)) : Bool :=
  evs.all fun e => !(e.event == "deleted" && e.object.id == i)

/-- The update payloads for the domain id `i` in `evs`, in event order. -/
def updatesFor (i : String) (evs : List (Entity TrackObj)) : List TrackObj :=
  (evs.filter fun e => e.event == "updated" && e.object.id == i).map fun e => e.object

/-- Modelled from the spec's words (claim C1, spec section 8 "Fold
correctness"): the collection obtained by an exact fold of a Track event
sequence — one entry per `created` event with no later `deleted` event
for the same domain id, carrying the deep-merge of the create payload
with all of its later update payloads applied in event order. -/
def specTracks : List (Entity TrackObj) → List TrackObj
  | [] => []
  | e :: rest =>
    (if e.event == "created" && noLaterDelete e.object.id rest then
      [(updatesFor e.object.id rest).foldl deepmergeTrackObj e.object]
     else []) ++ specTracks rest

/-- Survival-and-merge of one already-present entry through a suffix of
events: dropped when a later delete for its id exists, otherwise merged
with all its later updates. -/
def procObj (evs : List (Entity TrackObj)) (o : TrackObj) : Option TrackObj :=
  if noLaterDelete o.id evs then some ((updatesFor o.id evs).foldl deepmergeTrackObj o)
  else none

theorem deepmergeTrackObj_id (a b : TrackObj) : (deepmergeTrackObj a b).id = b.id := rfl

theorem filterMap_procObj_nil (acc : List TrackObj) :
    acc.filterMap (procObj []) = acc := by
  induction acc with
  | nil => rfl
  | cons o rest ih => simp [procObj, noLaterDelete, updatesFor, ih]

theorem filterMap_filter_eq (acc : List TrackObj) (p : TrackObj → Bool)
    (f : TrackObj → Option TrackObj) :
    (acc.filter p).filterMap f = acc.filterMap fun o => if p o then f o else none := by
  induction acc with
  | nil => rfl
  | cons o rest ih =>
    by_cases h : p o <;> simp [List.filter_cons, List.filterMap_cons, h, ih]

theorem procObj_cons_created (e : Entity TrackObj) (rest : List (Entity TrackObj))
    (h : e.event = "created") (o : TrackObj) :
    procObj (e :: rest) o = procObj rest o := by
  simp [procObj, noLaterDelete, updatesFor, h]

theorem procObj_cons_other (e : Entity TrackObj) (rest : List (Entity TrackObj))
    (_h1 : ¬e.event = "created") (h2 : ¬e.event = "updated") (h3 : ¬e.event = "deleted")
    (o : TrackObj) :
    procObj (e :: rest) o = procObj rest o := by
  simp [procObj, noLaterDelete, updatesFor, h2, h3]

theorem procObj_cons_updated (e : Entity TrackObj) (rest : List (Entity TrackObj))
    (h : e.event = "updated") (o : TrackObj) :
    procObj (e :: rest) o =
      procObj rest (if o.id == e.object.id then deepmergeTrackObj o e.object else o) := by
  by_cases hid : o.id = e.object.id
  · have hmid : (deepmergeTrackObj o e.object).id = o.id := by
      rw [deepmergeTrackObj_id, hid]
    simp [procObj, noLaterDelete, updatesFor, h, hid, hmid, List.foldl_cons]
  · have hid2 : ¬e.object.id = o.id := fun hh => hid hh.symm
    simp [procObj, noLaterDelete, updatesFor, h, hid, hid2]

theorem procObj_cons_deleted (e : Entity TrackObj) (rest : List (Entity TrackObj))
    (h : e.event = "deleted") (o : TrackObj) :
    procObj (e :: rest) o =
      (if !(o.id == e.object.id) then procObj rest o else none) := by
  by_cases hid : o.id = e.object.id
  · simp [procObj, noLaterDelete, h, hid]
  · have hid2 : ¬e.object.id = o.id := fun hh => hid hh.symm
    simp [procObj, noLaterDelete, updatesFor, h, hid, hid2]

/-- Key fold lemma: replaying the code's per-event payload fold over any
starting collection produces the processed survivors of the start
followed by the specification-side collection of the event list. -/
theorem foldl_applyTrackObj_eq (evs : List (Entity TrackObj)) :
    ∀ acc : List TrackObj,
      List.foldl applyTrackObj acc evs = acc.filterMap (procObj evs) ++ specTracks evs := by
  induction evs with
  | nil =>
    intro acc
    simp [specTracks, filterMap_procObj_nil]
  | cons e rest ih =>
    intro acc
    by_cases h1 : e.event = "created"
    · have hstep : applyTrackObj acc e = acc ++ [e.object] := by
        simp [applyTrackObj, h1]
      rw [List.foldl_cons, hstep, ih, List.filterMap_append]
      have hpe : acc.filterMap (procObj (e :: rest)) = acc.filterMap (procObj rest) := by
        have hfun : procObj (e :: rest) = procObj rest :=
          funext (procObj_cons_created e rest h1)
        rw [hfun]
      have hsingle : List.filterMap (procObj rest) [e.object] =
          (if e.event == "created" && noLaterDelete e.object.id rest then
            [(updatesFor e.object.id rest).foldl deepmergeTrackObj e.object] else []) := by
        by_cases hd : noLaterDelete e.object.id rest <;>
          simp [procObj, h1, hd]
      have hspec : specTracks (e :: rest) =
          (if e.event == "created" && noLaterDelete e.object.id rest then
            [(updatesFor e.object.id rest).foldl deepmergeTrackObj e.object] else []) ++
          specTracks rest := rfl
      rw [hpe, hsingle, hspec, List.append_assoc]
    · by_cases h2 : e.event = "updated"
      · have hstep : applyTrackObj acc e =
            acc.map fun o => if o.id == e.object.id then deepmergeTrackObj o e.object else o := by
          simp [applyTrackObj, h1, h2]
        rw [List.foldl_cons, hstep, ih]
        have hspec : specTracks (e :: rest) = specTracks rest := by
          simp [specTracks, h1]
        have hmap : (acc.map fun o =>
            if o.id == e.object.id then deepmergeTrackObj o e.object else o).filterMap
              (procObj rest) = acc.filterMap (procObj (e :: rest)) := by
          rw [List.filterMap_map]
          apply List.filterMap_congr
          intro o _
          exact (procObj_cons_updated e rest h2 o).symm
        rw [hmap, hspec]
      · by_cases h3 : e.event = "deleted"
        · have hstep : applyTrackObj acc e = acc.filter fun o => !(o.id == e.object.id) := by
            simp [applyTrackObj, h1, h2, h3]
          rw [List.foldl_cons, hstep, ih]
          have hspec : specTracks (e :: rest) = specTracks rest := by
            simp [specTracks, h1]
          have hfil : (acc.filter fun o => !(o.id == e.object.id)).filterMap (procObj rest) =
              acc.filterMap (procObj (e :: rest)) := by
            rw [filterMap_filter_eq]
            apply List.filterMap_congr
            intro o _
            exact (procObj_cons_deleted e rest h3 o).symm
          rw [hfil, hspec]
        · have hstep : applyTrackObj acc e = acc := by
            simp [applyTrackObj, h1, h2, h3]
          rw [List.foldl_cons, hstep, ih]
          have hspec : specTracks (e :: rest) = specTracks rest := by
            simp [specTracks, h1]
          have hpe : acc.filterMap (procObj (e :: rest)) = acc.filterMap (procObj rest) := by
            have hfun : procObj (e :: rest) = procObj rest :=
              funext (procObj_cons_other e rest h1 h2 h3)
            rw [hfun]
          rw [hpe, hspec]

theorem map_object_map (ts : List (Audit TrackObj)) (f : Audit TrackObj → Audit TrackObj)
    (g : TrackObj → TrackObj) (hfg : ∀ t, (f t).object = g t.object) :
    (ts.map f).map (fun t => t.object) = (ts.map (fun t => t.object)).map g := by
  induction ts with
  | nil => rfl
  | cons t ts ih => simp only [List.map_cons, hfg, ih]

theorem map_object_filter (ts : List (Audit TrackObj)) (p : Audit TrackObj → Bool)
    (q : TrackObj → Bool) (hpq : ∀ t, p t = q t.object) :
    (ts.filter p).map (fun t => t.object) = (ts.map (fun t => t.object)).filter q := by
  induction ts with
  | nil => rfl
  | cons t ts ih =>
    rw [List.filter_cons, List.map_cons, List.filter_cons, ← hpq t]
    by_cases hp : p t <;> simp [hp, ih]

theorem applyTrackChild_objects (ts : List (Audit TrackObj)) (ch : Audit TrackObj) :
    (applyTrackChild ts ch).map (fun t => t.object) =
      applyTrackObj (ts.map fun t => t.object) ch.toEntity := by
  by_cases h1 : ch.event = "created"
  · simp [applyTrackChild, applyTrackObj, h1]
  · by_cases h2 : ch.event = "updated"
    · rw [applyTrackChild_updated ts ch h2]
      have hobj : applyTrackObj (ts.map fun t => t.object) ch.toEntity =
          (ts.map fun t => t.object).map fun o =>
            if o.id == ch.object.id then deepmergeTrackObj o ch.object else o := by
        simp [applyTrackObj, h1, h2]
      rw [hobj]
      apply map_object_map
      intro t
      by_cases ht : t.object.id = ch.object.id <;> simp [ht, deepmergeTrack]
    · by_cases h3 : ch.event = "deleted"
      · have hch : applyTrackChild ts ch = ts.filter fun s => !(s.object.id == ch.object.id) := by
          simp [applyTrackChild, h1, h2, h3]
        have hobj : applyTrackObj (ts.map fun t => t.object) ch.toEntity =
            (ts.map fun t => t.object).filter fun o => !(o.id == ch.object.id) := by
          simp [applyTrackObj, h1, h2, h3]
        rw [hch, hobj]
        apply map_object_filter
        intro t
        rfl
      · simp [applyTrackChild, applyTrackObj, h1, h2, h3]

/-- The embedded Track collection of the latest Slide snapshot for the
domain id `S`, empty when no snapshot exists yet (which is also the
baseline the builder starts from in that case). -/
def baselineTracks (st : State) (S : String) : List (Audit TrackObj) :=
  match lastMatch? st.slideSnaps (fun d => d.object.id == S) with
  | none => []
  | some p => p.tracks

/-- Sequential processing of a list of Track events through the full
`insertTrack` entry point. -/
def processTracks (st : State) (evs : List (Entity TrackObj)) : State :=
  evs.foldl (fun s e => (insertTrack s e).1) st

theorem lastMatch?_pred {l : List α} {p : α → Bool} {x : α}
    (h : lastMatch? l p = some x) : p x = true :=
  List.of_mem_filter (List.mem_of_getLast?_eq_some h)

theorem lastMatch?_append_single (l : List α) (p : α → Bool) (x : α) (hx : p x = true) :
    lastMatch? (l ++ [x]) p = some x := by
  unfold lastMatch?
  rw [List.filter_append]
  simp [hx, List.getLast?_concat]

theorem insertTrack_step (st : State) (e : Entity TrackObj) (S : String) (a : Audit SlideObj)
    (he : e.object.slideId = some S)
    (hA : lastMatch? st.slideAudits (fun x => x.object.id == S) = some a)
    (hR : (st.revAudits.find? fun r => r.object.id == a.object.revisionId).isSome = true) :
    (insertTrack st e).1.slideAudits = st.slideAudits ∧
    (insertTrack st e).1.revAudits = st.revAudits ∧
    ∃ q : SlideSnap, (insertTrack st e).1.slideSnaps = st.slideSnaps ++ [q] ∧
      q.object.id = S ∧
      q.tracks = applyTrackChild (baselineTracks st S)
        { toEntity := e, oid := st.nextId, cAt := st.now } := by
  have haS : a.object.id = S := by
    have := lastMatch?_pred hA
    simpa using this
  have hpred : (fun x : Audit SlideObj => some x.object.id == e.object.slideId) =
      (fun x : Audit SlideObj => x.object.id == S) := by
    funext x
    rw [he]
    rfl
  obtain ⟨r, hr⟩ := Option.isSome_iff_exists.mp hR
  unfold insertTrack
  simp only [hpred, hA, hr]
  unfold insertDenormalizedSlide
  simp only [haS]
  unfold baselineTracks
  cases hprev : lastMatch? st.slideSnaps (fun d => d.object.id == S) with
  | none =>
    simp only [hprev]
    exact ⟨rfl, rfl, _, rfl, haS, rfl⟩
  | some p =>
    simp only [hprev]
    exact ⟨rfl, rfl, _, rfl, haS, rfl⟩

theorem processTracks_spec (S : String) (a : Audit SlideObj) (evs : List (Entity TrackObj)) :
    ∀ st : State, lastMatch? st.slideAudits (fun x => x.object.id == S) = some a →
      (st.revAudits.find? fun r => r.object.id == a.object.revisionId).isSome = true →
      (∀ e ∈ evs, e.object.slideId = some S) →
      ((baselineTracks (processTracks st evs) S).map fun t => t.object) =
        List.foldl applyTrackObj ((baselineTracks st S).map fun t => t.object) evs ∧
      (processTracks st evs).slideAudits = st.slideAudits ∧
      (processTracks st evs).revAudits = st.revAudits := by
  induction evs with
  | nil => exact fun st _ _ _ => ⟨rfl, rfl, rfl⟩
  | cons e rest ih =>
    intro st hA hR hevs
    obtain ⟨hsa, hra, q, hsnaps, hqid, hqtracks⟩ :=
      insertTrack_step st e S a (hevs e (List.mem_cons_self e rest)) hA hR
    have hrun : processTracks st (e :: rest) = processTracks (insertTrack st e).1 rest := rfl
    have hbase1 : baselineTracks (insertTrack st e).1 S = q.tracks := by
      unfold baselineTracks
      rw [hsnaps, lastMatch?_append_single st.slideSnaps _ q (by simp [hqid])]
    have hA1 : lastMatch? (insertTrack st e).1.slideAudits
        (fun x => x.object.id == S) = some a := by rw [hsa]; exact hA
    have hR1 : ((insertTrack st e).1.revAudits.find?
        fun r => r.object.id == a.object.revisionId).isSome = true := by rw [hra]; exact hR
    obtain ⟨ihtracks, ihsa, ihra⟩ :=
      ih (insertTrack st e).1 hA1 hR1 (fun x hx => hevs x (List.mem_cons_of_mem e hx))
    refine ⟨?_, ?_, ?_⟩
    · rw [hrun, ihtracks, hbase1, hqtracks, applyTrackChild_objects, List.foldl_cons]
    · rw [hrun, ihsa, hsa]
    · rw [hrun, ihra, hra]

/-- Claim C1: for every sequence of Track create/update/delete events
folded against one Slide (through the real `insertTrack` pipeline, with
the slide's audit record and its revision's audit record present, and an
empty baseline track collection), the latest Slide snapshot's embedded
Track collection after replay equals the exact specification-side fold of
the sequence: one entry per created Track id with no later delete, its
payload being the deep-merge of the create payload with all of its later
update payloads applied in event order (incoming scalar fields win,
arrays concatenate, per the generic deep merge). -/
theorem C1_track_fold_correct (st : State) (S : String) (a : Audit SlideObj)
    (evs : List (Entity TrackObj))
    (hA : lastMatch? st.slideAudits (fun x => x.object.id == S) = some a)
    (hR : (st.revAudits.find? fun r => r.object.id == a.object.revisionId).isSome = true)
    (hbase : baselineTracks st S = [])
    (hevs : ∀ e ∈ evs, e.object.slideId = some S ∧
      (e.event = "created" ∨ e.event = "updated" ∨ e.event = "deleted")) :
    ((baselineTracks (processTracks st evs) S).map fun t => t.object) = specTracks evs := by
  obtain ⟨htracks, _, _⟩ :=
    processTracks_spec S a evs st hA hR (fun e he => (hevs e he).1)
  rw [htracks, hbase]
  simpa using foldl_applyTrackObj_eq evs []

/-- The slide audit record present in `stateAfterSlide`. -/
def slideAudit1 : Audit SlideObj := { toEntity := slideEv1, oid := 2, cAt := 2 }

/-- Claim C1, witness: replaying a create followed by an update of the
same track against slide s1 on the state holding the sample Revision and
Slide. -/
theorem C1_track_fold_correct_witness :
    ((baselineTracks (processTracks stateAfterSlide [trackEv1, trackEv1u]) "s1").map
      fun t => t.object) = specTracks [trackEv1, trackEv1u] :=
  C1_track_fold_correct stateAfterSlide "s1" slideAudit1 [trackEv1, trackEv1u]
    (by decide) (by decide) (by decide) (by decide)

/-! Claim C5 infrastructure: the version-chain structure of the two
snapshot stores, abstracted to links (version id, domain id, previous
reference). -/

/-- The chain-relevant projection of a snapshot document: version id,
domain id and previous-version reference. -/
structure Link where
  lid : Nat
  oid : String
  prev : Option Nat
deriving DecidableEq, Repr

/-- Link projection of the Slide snapshot store. -/
def slideLinks (st : State) : List Link :=
  st.slideSnaps.map fun d => { lid := d.oid, oid := d.object.id, prev := d.previous }

/-- Link projection of the Revision snapshot store. -/
def revLinks (st : State) : List Link :=
  st.revSnaps.map fun d => { lid := d.oid, oid := d.object.id, prev := d.previous }

/-- Whether a link list is a single well-formed chain whose first element
carries `prev = p` and every later element points at its predecessor. -/
def chainOk : Option Nat → List Link → Bool
  | _, [] => true
  | p, l :: ls => (l.prev == p) && chainOk (some l.lid) ls

/-- The pointer the next element appended to the chain has to carry. -/
def lastPtr : Option Nat → List Link → Option Nat
  | p, [] => p
  | _, l :: ls => lastPtr (some l.lid) ls

/-- Fuelled traversal of `previous` references through the store,
resolving each reference by version id. -/
def walk (ls : List Link) : Nat → Option Nat → List Link
  | 0, _ => []
  | _ + 1, none => []
  | fuel + 1, some p =>
    match ls.find? fun l => l.lid == p with
    | none => []
    | some l => l :: walk ls fuel l.prev

/-- Well-formedness of a snapshot store's links: all version ids below the
generator bound, pairwise distinct version ids, and for every domain id
the documents with that id form one well-formed chain in insertion
order. -/
def LinksWF (bound : Nat) (ls : List Link) : Prop :=
  (∀ l ∈ ls, l.lid < bound) ∧
  ls.Pairwise (fun a b => a.lid ≠ b.lid) ∧
  ∀ i : String, chainOk none (ls.filter fun l => l.oid == i) = true

/-- Soundness of chain traversal over a store: walking `previous` from
the latest version of any domain id visits pairwise distinct versions,
all belonging to that domain id, and ends at a version with a null
`previous`; moreover no two distinct versions share a `previous`
reference (no branching, no sharing across domain ids). -/
def ChainSound (ls : List Link) : Prop :=
  (∀ i : String, ∀ d : Link, lastMatch? ls (fun l => l.oid == i) = some d →
    (d :: walk ls ls.length d.prev).Nodup ∧
    (∀ x ∈ d :: walk ls ls.length d.prev, x.oid = i) ∧
    (∃ z, (d :: walk ls ls.length d.prev).getLast? = some z ∧ z.prev = none)) ∧
  (∀ a ∈ ls, ∀ b ∈ ls, ∀ p : Nat, a.prev = some p → b.prev = some p → a = b)

theorem chainOk_append (p : Option Nat) (fl : List Link) (x : Link) :
    chainOk p (fl ++ [x]) = true ↔ chainOk p fl = true ∧ x.prev = lastPtr p fl := by
  induction fl generalizing p with
  | nil => simp [chainOk, lastPtr]
  | cons l fl ih =>
    show ((l.prev == p) && chainOk (some l.lid) (fl ++ [x])) = true ↔ _
    simp only [Bool.and_eq_true, ih, chainOk, lastPtr, and_assoc]

theorem lastPtr_ne_nil : ∀ (fl : List Link) (p : Option Nat), fl ≠ [] →
    lastPtr p fl = fl.getLast?.map fun l => l.lid
  | [l], _, _ => rfl
  | l :: y :: ys, p, _ => by
    have h := lastPtr_ne_nil (y :: ys) (some l.lid) (by simp)
    show lastPtr (some l.lid) (y :: ys) = _
    rw [h, List.getLast?_cons_cons]

theorem lastPtr_none (fl : List Link) :
    lastPtr none fl = fl.getLast?.map fun l => l.lid := by
  cases fl with
  | nil => rfl
  | cons l ls => exact lastPtr_ne_nil (l :: ls) none (by simp)

theorem lastPtr_append_single (p : Option Nat) (fl : List Link) (x : Link) :
    lastPtr p (fl ++ [x]) = some x.lid := by
  rw [lastPtr_ne_nil _ _ (by simp)]
  simp

theorem find?_of_pairwise (ls : List Link)
    (h : ls.Pairwise fun a b => a.lid ≠ b.lid) (x : Link) (hx : x ∈ ls) :
    ls.find? (fun l => l.lid == x.lid) = some x := by
  induction ls with
  | nil => cases hx
  | cons l ls ih =>
    rcases List.mem_cons.mp hx with rfl | hx2
    · simp
    · have hne : l.lid ≠ x.lid := (List.pairwise_cons.mp h).1 x hx2
      rw [List.find?_cons_of_neg _ (by simpa using hne)]
      exact ih (List.pairwise_cons.mp h).2 hx2

theorem walk_reverse (ls : List Link) (fl : List Link)
    (hres : ∀ x ∈ fl, ls.find? (fun l => l.lid == x.lid) = some x) :
    ∀ fuel, fl.length ≤ fuel → chainOk none fl = true →
      walk ls fuel (lastPtr none fl) = fl.reverse := by
  induction fl using List.reverseRecOn with
  | nil =>
    intro fuel _ _
    cases fuel <;> rfl
  | append_singleton fl x ih =>
    intro fuel hlen hok
    rw [show lastPtr none (fl ++ [x]) = some x.lid from lastPtr_append_single none fl x]
    obtain ⟨hok2, hxprev⟩ := (chainOk_append none fl x).mp hok
    cases fuel with
    | zero => simp at hlen
    | succ f =>
      have hfind := hres x (by simp)
      simp only [walk, hfind]
      rw [hxprev, ih (fun y hy => hres y (by simp [hy])) f (by simpa using hlen) hok2]
      simp

theorem chainOk_prev_shape : ∀ (fl : List Link) (p : Option Nat), chainOk p fl = true →
    ∀ b ∈ fl, b.prev = p ∨ ∃ c ∈ fl, b.prev = some c.lid := by
  intro fl
  induction fl with
  | nil => intro p _ b hb; cases hb
  | cons l rest ih =>
    intro p hok b hb
    have hok2 := (Bool.and_eq_true _ _).mp hok
    rcases List.mem_cons.mp hb with rfl | hb2
    · exact Or.inl (by simpa using hok2.1)
    · rcases ih (some l.lid) hok2.2 b hb2 with h1 | ⟨c, hc, h2⟩
      · exact Or.inr ⟨l, List.mem_cons_self l rest, h1⟩
      · exact Or.inr ⟨c, List.mem_cons_of_mem l hc, h2⟩

theorem chainOk_prev_injective : ∀ (fl : List Link) (p₀ : Option Nat),
    chainOk p₀ fl = true → fl.Pairwise (fun a b => a.lid ≠ b.lid) →
    (∀ l ∈ fl, some l.lid ≠ p₀) →
    ∀ a ∈ fl, ∀ b ∈ fl, a.prev = b.prev → a = b := by
  intro fl
  induction fl with
  | nil => intro p₀ _ _ _ a ha; cases ha
  | cons x rest ih =>
    intro p₀ hok hpw hfresh a ha b hb hab
    have hok2 := (Bool.and_eq_true _ _).mp hok
    have hxprev : x.prev = p₀ := by simpa using hok2.1
    have key : ∀ c ∈ rest, c.prev ≠ p₀ := by
      intro c hc hcp
      rcases chainOk_prev_shape rest (some x.lid) hok2.2 c hc with h1 | ⟨e, he, h2⟩
      · exact hfresh x (List.mem_cons_self x rest) (h1.symm.trans hcp)
      · exact hfresh e (List.mem_cons_of_mem x he) (h2.symm.trans hcp)
    rcases List.mem_cons.mp ha with rfl | ha2
    · rcases List.mem_cons.mp hb with rfl | hb2
      · rfl
      · exact absurd (hab.symm.trans hxprev) (key b hb2)
    · rcases List.mem_cons.mp hb with rfl | hb2
      · exact absurd (hab.trans hxprev) (key a ha2)
      · refine ih (some x.lid) hok2.2 (List.pairwise_cons.mp hpw).2 ?_ a ha2 b hb2 hab
        intro l hl hcontra
        exact (List.pairwise_cons.mp hpw).1 l hl (Option.some_inj.mp hcontra).symm

theorem chainOk_prev_mem (fl : List Link) (h : chainOk none fl = true)
    (b : Link) (hb : b ∈ fl) (p : Nat) (hp : b.prev = some p) : ∃ c ∈ fl, c.lid = p := by
  rcases chainOk_prev_shape fl none h b hb with h1 | ⟨c, hc, h2⟩
  · rw [hp] at h1; cases h1
  · rw [hp] at h2
    exact ⟨c, hc, (Option.some_inj.mp h2).symm⟩

theorem pairwise_lid_unique (ls : List Link)
    (h : ls.Pairwise fun a b => a.lid ≠ b.lid)
    (a b : Link) (ha : a ∈ ls) (hb : b ∈ ls) (hl : a.lid = b.lid) : a = b := by
  induction ls with
  | nil => cases ha
  | cons x rest ih =>
    have hpc := List.pairwise_cons.mp h
    rcases List.mem_cons.mp ha with rfl | ha2
    · rcases List.mem_cons.mp hb with rfl | hb2
      · rfl
      · exact absurd hl (hpc.1 b hb2)
    · rcases List.mem_cons.mp hb with rfl | hb2
      · exact absurd hl.symm (hpc.1 a ha2)
      · exact ih hpc.2 ha2 hb2

theorem chainOk_head_prev (fl : List Link) (h : chainOk none fl = true)
    (z : Link) (hz : fl.head? = some z) : z.prev = none := by
  cases fl with
  | nil => cases hz
  | cons l rest =>
    have hok2 := (Bool.and_eq_true _ _).mp h
    have : l = z := by simpa using hz
    subst this
    simpa using hok2.1

theorem linksWF_chainSound (b : Nat) (ls : List Link) (h : LinksWF b ls) :
    ChainSound ls := by
  obtain ⟨hbound, hpw, hchains⟩ := h
  constructor
  · intro i d hd
    have hok : chainOk none (ls.filter fun l => l.oid == i) = true := hchains i
    have hdlast : (ls.filter fun l => l.oid == i).getLast? = some d := hd
    have hdecomp : (ls.filter fun l => l.oid == i).dropLast ++ [d] =
        ls.filter fun l => l.oid == i :=
      List.dropLast_append_getLast? d hdlast
    have hok2 := (chainOk_append none (ls.filter fun l => l.oid == i).dropLast d).mp
      (by rw [hdecomp]; exact hok)
    have hmemfl : ∀ x ∈ (ls.filter fun l => l.oid == i).dropLast,
        x ∈ ls.filter fun l => l.oid == i := by
      intro x hx
      rw [← hdecomp]
      exact List.mem_append_left _ hx
    have hres : ∀ x ∈ (ls.filter fun l => l.oid == i).dropLast,
        ls.find? (fun l => l.lid == x.lid) = some x := by
      intro x hx
      exact find?_of_pairwise ls hpw x (List.mem_of_mem_filter (hmemfl x hx))
    have hlen : (ls.filter fun l => l.oid == i).dropLast.length ≤ ls.length := by
      have h1 := List.length_filter_le (fun l => l.oid == i) ls
      have h2 : (ls.filter fun l => l.oid == i).dropLast.length =
          (ls.filter fun l => l.oid == i).length - 1 := List.length_dropLast _
      omega
    have hwalk : walk ls ls.length d.prev =
        (ls.filter fun l => l.oid == i).dropLast.reverse := by
      rw [hok2.2]
      exact walk_reverse ls _ hres ls.length hlen hok2.1
    have hrev : (ls.filter fun l => l.oid == i).reverse =
        d :: (ls.filter fun l => l.oid == i).dropLast.reverse := by
      conv_lhs => rw [← hdecomp]
      simp
    have hchain_eq : d :: walk ls ls.length d.prev =
        (ls.filter fun l => l.oid == i).reverse := by
      rw [hwalk]
      exact hrev.symm
    rw [hchain_eq]
    refine ⟨?_, ?_, ?_⟩
    · rw [List.nodup_reverse]
      exact (hpw.filter _).imp fun hab he => hab (congrArg Link.lid he)
    · intro x hx
      rw [List.mem_reverse] at hx
      simpa using List.of_mem_filter hx
    · have hne : (ls.filter fun l => l.oid == i) ≠ [] := by
        intro h0
        rw [h0] at hdlast
        cases hdlast
      cases hfl : ls.filter fun l => l.oid == i with
      | nil => exact absurd hfl hne
      | cons z rest =>
        refine ⟨z, ?_, ?_⟩
        · rw [List.getLast?_reverse]
          rfl
        · exact chainOk_head_prev (z :: rest) (hfl ▸ hok) z rfl
  · intro a ha b2 hb p hpa hpb
    have hafl : a ∈ ls.filter fun l => l.oid == a.oid :=
      List.mem_filter.mpr ⟨ha, by simp⟩
    have hbfl : b2 ∈ ls.filter fun l => l.oid == b2.oid :=
      List.mem_filter.mpr ⟨hb, by simp⟩
    obtain ⟨ca, hca, hcal⟩ := chainOk_prev_mem _ (hchains a.oid) a hafl p hpa
    obtain ⟨cb, hcb, hcbl⟩ := chainOk_prev_mem _ (hchains b2.oid) b2 hbfl p hpb
    have hcc : ca = cb :=
      pairwise_lid_unique ls hpw ca cb (List.mem_of_mem_filter hca)
        (List.mem_of_mem_filter hcb) (hcal.trans hcbl.symm)
    have hoid : a.oid = b2.oid := by
      have h1 : ca.oid = a.oid := by simpa using List.of_mem_filter hca
      have h2 : cb.oid = b2.oid := by simpa using List.of_mem_filter hcb
      rw [← h1, hcc, h2]
    have hbfl2 : b2 ∈ ls.filter fun l => l.oid == a.oid :=
      List.mem_filter.mpr ⟨hb, by simp [hoid.symm]⟩
    exact chainOk_prev_injective _ none (hchains a.oid) (hpw.filter _)
      (fun l _ hc => Option.noConfusion hc) a hafl b2 hbfl2 (hpa.trans hpb.symm)

theorem linksWF_mono (b b' : Nat) (ls : List Link) (h : LinksWF b ls) (hbb : b ≤ b') :
    LinksWF b' ls :=
  ⟨fun l hl => lt_of_lt_of_le (h.1 l hl) hbb, h.2.1, h.2.2⟩

theorem linksWF_push (b n : Nat) (ls : List Link) (i : String) (pv : Option Nat)
    (h : LinksWF b ls) (hbn : b ≤ n)
    (hpv : pv = (lastMatch? ls fun l => l.oid == i).map fun l => l.lid) :
    LinksWF (n + 1) (ls ++ [{ lid := n, oid := i, prev := pv }]) := by
  obtain ⟨hbound, hpw, hchains⟩ := h
  refine ⟨?_, ?_, ?_⟩
  · intro l hl
    rcases List.mem_append.mp hl with h1 | h2
    · exact lt_of_lt_of_le (hbound l h1) (by omega)
    · have h3 : l = { lid := n, oid := i, prev := pv } := by simpa using h2
      rw [h3]
      exact Nat.lt_succ_self n
  · rw [List.pairwise_append]
    refine ⟨hpw, List.pairwise_singleton _ _, ?_⟩
    intro a ha l2 hl2
    have h3 : l2 = { lid := n, oid := i, prev := pv } := by simpa using hl2
    rw [h3]
    exact Nat.ne_of_lt (lt_of_lt_of_le (hbound a ha) hbn)
  · intro j
    rw [List.filter_append]
    by_cases hij : i = j
    · subst hij
      have hnew : List.filter (fun l => l.oid == i)
          [({ lid := n, oid := i, prev := pv } : Link)] =
          [{ lid := n, oid := i, prev := pv }] := by simp
      rw [hnew]
      apply (chainOk_append none _ _).mpr
      refine ⟨hchains i, ?_⟩
      show pv = lastPtr none (ls.filter fun l => l.oid == i)
      rw [hpv, lastPtr_none]
      rfl
    · have hnew : List.filter (fun l => l.oid == j)
          [({ lid := n, oid := i, prev := pv } : Link)] = [] := by simp [hij]
      rw [hnew, List.append_nil]
      exact hchains j

theorem lastMatch?_map (l : List α) (f : α → β) (p : β → Bool) :
    lastMatch? (l.map f) p = (lastMatch? l fun a => p (f a)).map f := by
  unfold lastMatch?
  rw [List.filter_map, List.getLast?_map]
  rfl

theorem slideLinks_insertDenormalizedSlide (st : State) (item : Entity SlideObj)
    (children : Option (Audit TrackObj)) :
    slideLinks (insertDenormalizedSlide st item children) =
      slideLinks st ++
        [{ lid := st.nextId
           oid := item.object.id
           prev := (lastMatch? (slideLinks st) fun l => l.oid == item.object.id).map
             fun l => l.lid }] := by
  have hm : lastMatch? (slideLinks st) (fun l => l.oid == item.object.id) =
      (lastMatch? st.slideSnaps fun d => d.object.id == item.object.id).map
        fun d => ({ lid := d.oid, oid := d.object.id, prev := d.previous } : Link) := by
    unfold slideLinks
    rw [lastMatch?_map]
  rw [hm]
  unfold insertDenormalizedSlide slideLinks
  cases hprev : lastMatch? st.slideSnaps (fun d => d.object.id == item.object.id) <;>
    cases children <;> simp [hprev]

theorem revLinks_insertDenormalized (st : State) (item : Entity RevObj)
    (children : Option RevChildren) :
    revLinks (insertDenormalized st item children) =
      revLinks st ++
        [{ lid := st.nextId
           oid := item.object.id
           prev := (lastMatch? (revLinks st) fun l => l.oid == item.object.id).map
             fun l => l.lid }] := by
  have hm : lastMatch? (revLinks st) (fun l => l.oid == item.object.id) =
      (lastMatch? st.revSnaps fun d => d.object.id == item.object.id).map
        fun d => ({ lid := d.oid, oid := d.object.id, prev := d.previous } : Link) := by
    unfold revLinks
    rw [lastMatch?_map]
  rw [hm]
  unfold insertDenormalized revLinks
  cases hprev : lastMatch? st.revSnaps (fun d => d.object.id == item.object.id) <;>
    cases children <;> simp [hprev]

/-- Both snapshot stores' link structures are well formed with respect to
the id generator. -/
def Inv (st : State) : Prop :=
  LinksWF st.nextId (slideLinks st) ∧ LinksWF st.nextId (revLinks st)

theorem inv_insertDenormalizedSlide (st : State) (item : Entity SlideObj)
    (children : Option (Audit TrackObj)) (h : Inv st) :
    Inv (insertDenormalizedSlide st item children) := by
  constructor
  · rw [slideLinks_insertDenormalizedSlide]
    exact linksWF_push st.nextId st.nextId (slideLinks st) item.object.id _ h.1
      (le_refl _) rfl
  · show LinksWF (st.nextId + 1) (revLinks st)
    exact linksWF_mono _ _ _ h.2 (Nat.le_succ _)

theorem inv_insertDenormalized (st : State) (item : Entity RevObj)
    (children : Option RevChildren) (h : Inv st) :
    Inv (insertDenormalized st item children) := by
  constructor
  · show LinksWF (st.nextId + 1) (slideLinks st)
    exact linksWF_mono _ _ _ h.1 (Nat.le_succ _)
  · rw [revLinks_insertDenormalized]
    exact linksWF_push st.nextId st.nextId (revLinks st) item.object.id _ h.2
      (le_refl _) rfl

theorem inv_insertRev (st : State) (e : Entity RevObj) (h : Inv st) :
    Inv (insertRev st e).1 := by
  apply inv_insertDenormalized
  exact ⟨linksWF_mono _ _ _ h.1 (Nat.le_succ _), linksWF_mono _ _ _ h.2 (Nat.le_succ _)⟩

theorem inv_insertSlide (st : State) (e : Entity SlideObj) (h : Inv st) :
    Inv (insertSlide st e).1 := by
  unfold insertSlide
  cases hr : lastMatch? st.revAudits fun r => r.object.id == e.object.revisionId
  · simp only [hr]
    apply inv_insertDenormalizedSlide
    exact ⟨linksWF_mono _ _ _ h.1 (Nat.le_succ _), linksWF_mono _ _ _ h.2 (Nat.le_succ _)⟩
  · simp only [hr]
    apply inv_insertDenormalized
    apply inv_insertDenormalizedSlide
    exact ⟨linksWF_mono _ _ _ h.1 (Nat.le_succ _), linksWF_mono _ _ _ h.2 (Nat.le_succ _)⟩

theorem inv_insertTrack (st : State) (e : Entity TrackObj) (h : Inv st) :
    Inv (insertTrack st e).1 := by
  unfold insertTrack
  cases hs : lastMatch? st.slideAudits fun a => some a.object.id == e.object.slideId
  · simp only [hs]
    exact ⟨linksWF_mono _ _ _ h.1 (Nat.le_succ _), linksWF_mono _ _ _ h.2 (Nat.le_succ _)⟩
  · simp only [hs]
    rename_i s
    cases hrv : List.find? (fun r : Audit RevObj => r.object.id == s.object.revisionId)
        st.revAudits
    · simp only [hrv]
      apply inv_insertDenormalizedSlide
      exact ⟨linksWF_mono _ _ _ h.1 (Nat.le_succ _), linksWF_mono _ _ _ h.2 (Nat.le_succ _)⟩
    · simp only [hrv]
      apply inv_insertDenormalized
      apply inv_insertDenormalizedSlide
      exact ⟨linksWF_mono _ _ _ h.1 (Nat.le_succ _), linksWF_mono _ _ _ h.2 (Nat.le_succ _)⟩

/-- States reachable from a fresh database through the three entry points,
including the states left behind by failing events. -/
inductive Reachable : State → Prop where
  | init : Reachable initState
  | stepRev (st : State) (e : Entity RevObj) : Reachable st → Reachable (insertRev st e).1
  | stepSlide (st : State) (e : Entity SlideObj) :
      Reachable st → Reachable (insertSlide st e).1
  | stepTrack (st : State) (e : Entity TrackObj) :
      Reachable st → Reachable (insertTrack st e).1

theorem reachable_inv (st : State) (h : Reachable st) : Inv st := by
  induction h with
  | init =>
    constructor <;> exact ⟨by simp [slideLinks, revLinks, initState],
      by simp [slideLinks, revLinks, initState], fun i => rfl⟩
  | stepRev st e _ ih => exact inv_insertRev st e ih
  | stepSlide st e _ ih => exact inv_insertSlide st e ih
  | stepTrack st e _ ih => exact inv_insertTrack st e ih

/-- Claim C5: in every reachable state of both snapshot stores and for
every domain id, following `previous` references from the latest snapshot
version for that id visits pairwise distinct versions, all carrying that
domain id (no sharing with another id's chain), and terminates at a
version whose `previous` is null; moreover no two distinct versions of
either store share a `previous` reference (no branching). -/
theorem C5_chain_integrity (st : State) (h : Reachable st) :
    ChainSound (slideLinks st) ∧ ChainSound (revLinks st) :=
  ⟨linksWF_chainSound st.nextId _ (reachable_inv st h).1,
   linksWF_chainSound st.nextId _ (reachable_inv st h).2⟩

/-- Claim C5, witness: the state reached by processing the sample Revision
and Slide events from a fresh database. -/
theorem C5_chain_integrity_witness :
    ChainSound (slideLinks stateAfterSlide) ∧ ChainSound (revLinks stateAfterSlide) :=
  C5_chain_integrity stateAfterSlide
    (Reachable.stepSlide stateAfterRev slideEv1
      (Reachable.stepRev initState revEv1 Reachable.init))

end TestAudit
